import Mathlib

/-!
Shallow embedding of the benchmark orchestrator in
src/scandeval/benchmark.py (class Benchmark): the model catalog cache
built by Benchmark._get_model_lists, the selection resolver, the run
loop with per-pair failure isolation, and the results accumulator of
Benchmark.__call__.  Python dicts are embedded as association lists
that preserve insertion order; defaultdict access is embedded as a
total lookup that inserts the default value on a miss, exactly as
collections.defaultdict does.
-/

namespace Scandeval

/-- Lookup in a Python dict, embedded as an association list: the value
of the first entry whose key matches, or none when the key is absent. -/
def dictGet? [DecidableEq α] : List (α × β) → α → Option β
  | [], _ => none
  | (k, v) :: rest, k' => if k = k' then some v else dictGet? rest k'

/-- Assignment d[k] = v on a Python dict: an existing key keeps its
position and gets the new value; a new key is appended at the end
(insertion order semantics). -/
def dictSet [DecidableEq α] : List (α × β) → α → β → List (α × β)
  | [], k, v => [(k, v)]
  | (k', v') :: rest, k, v =>
      if k' = k then (k, v) :: rest else (k', v') :: dictSet rest k v

/-- The model catalog (Benchmark._model_lists once built): a
defaultdict(list) keyed by language or task filter value.  The key
none embeds the Python key None (the unfiltered wildcard); some s
embeds a string key such as "all", "multilingual", a language code or
a task code. -/
abbrev Catalog := List (Option String × List String)

/-- Access ml[k] on a defaultdict(list): on a miss the empty list is
inserted at the end and returned, so the access never fails.  Returns
the value together with the possibly grown dict. -/
def ddGet (ml : Catalog) (k : Option String) : List String × Catalog :=
  match dictGet? ml k with
  | some v => (v, ml)
  | none => ([], ml ++ [(k, [])])

/-- The statement ml[k].extend(xs) on a defaultdict(list): appends xs
to the existing bucket, materialising an empty bucket first on a
miss. -/
def ddExtend (ml : Catalog) (k : Option String) (xs : List String) : Catalog :=
  match dictGet? ml k with
  | some v => dictSet ml k (v ++ xs)
  | none => ml ++ [(k, xs)]

/-- Embedding of Python list(set(xs)): the underlying set of xs as a
list.  CPython set order is unspecified, so only the membership of the
result is meaningful; this embedding removes duplicates keeping one
occurrence of each element. -/
def pySetList [DecidableEq α] : List α → List α
  | [] => []
  | x :: xs =>
      let rest := pySetList xs
      if x ∈ rest then rest else x :: rest

/-- The bucket of a catalog under a key, the empty list when the key is
absent (convenience for stating membership properties). -/
def bucket (ml : Catalog) (k : Option String) : List String :=
  (dictGet? ml k).getD []

/-- The hand-maintained multilingual model list of
Benchmark._get_model_lists (line 185). -/
def multilingual_models : List String := ["xlm-roberta-base", "xlm-roberta-large"]

/-- The cross-product fetch loop of Benchmark._get_model_lists (lines
176-182): for every (language, task) pair, fetch the matching model
ids and extend the buckets for "all", the language and the task.  The
external HuggingFace Hub query Benchmark._get_model_ids is the
parameter fetch. -/
def crossLoop (fetch : Option String → Option String → List String)
    (languages tasks : List (Option String)) : Catalog :=
  languages.foldl (fun ml language =>
    tasks.foldl (fun ml task =>
      let model_ids := fetch language task
      let ml := ddExtend ml (some "all") model_ids
      let ml := ddExtend ml language model_ids
      ddExtend ml task model_ids) ml) []

/-- Benchmark._get_model_lists (lines 143-193): the cross-product fetch
loop, then the manual injection of the multilingual models (extend on
"all", plain assignment on "multilingual"), then deduplication of
every bucket via list(set(...)).  The returned object is a
defaultdict(list). -/
def get_model_lists (fetch : Option String → Option String → List String)
    (languages tasks : List (Option String)) : Catalog :=
  let ml := crossLoop fetch languages tasks
  let ml := ddExtend ml (some "all") multilingual_models
  let ml := dictSet ml (some "multilingual") multilingual_models
  ml.map (fun kv => (kv.1, pySetList kv.2))

/-- A user-supplied selection value that Python types as
Union[str, List[str]] (model_id, dataset, language, task). -/
inductive StrOrList where
  | str (s : String)
  | list (xs : List String)
deriving DecidableEq

/-- Normalisation of the language or task argument (Benchmark.__call__
lines 272-286): the string "all" becomes the single wildcard None, any
other single string becomes a one-element list, and a list is used
as-is (its entries are string keys, never the wildcard). -/
def normFilter : StrOrList → List (Option String)
  | .str s => if s = "all" then [none] else [some s]
  | .list xs => xs.map some

/-- Sequential defaultdict(list) accesses ml[k] for k in ks,
concatenating the returned buckets and threading the possibly grown
dict (the model_ids.extend loops of Benchmark.__call__). -/
def ddGetMany (ml : Catalog) (ks : List (Option String)) : List String × Catalog :=
  match ks with
  | [] => ([], ml)
  | k :: rest =>
      let p := ddGet ml k
      let q := ddGetMany p.2 rest
      (p.1 ++ q.1, q.2)

/-- Model resolution of Benchmark.__call__ (lines 289-320).  With no
explicit model_id the catalog is built if absent and the buckets of
every requested language, every requested task and "multilingual" are
concatenated.  The try/except KeyError branch of lines 306-314 is dead
code and has no counterpart here: the catalog returned by
_get_model_lists is a defaultdict(list), so every subscript on it
inserts an empty bucket on a miss instead of raising KeyError.  With
an explicit model_id, a single string becomes a one-element list and a
list is used as-is; the catalog is neither consulted nor modified.
Returns the resolved model id list and the updated cache state. -/
def resolveModels (fetch : Option String → Option String → List String)
    (model_id : Option StrOrList)
    (languages tasks : List (Option String))
    (ml0 : Option Catalog) : List String × Option Catalog :=
  match model_id with
  | none =>
      let ml := match ml0 with
        | none => get_model_lists fetch languages tasks
        | some ml => ml
      let p := ddGetMany ml languages
      let q := ddGetMany p.2 tasks
      let r := ddGet q.2 (some "multilingual")
      (p.1 ++ q.1 ++ r.1, some r.2)
  | some (.str s) => ([s], ml0)
  | some (.list xs) => (xs, ml0)

/-- The dataset registry of Benchmark.__init__ (lines 88-101): the
fixed ordered list of (dataset key, display alias) pairs.  The runner
instance of each registration is abstracted into the runner function
of the run loop, keyed by the dataset key. -/
def benchmarksRegistry : List (String × String) :=
  [("dane", "DaNE with MISC tags"),
   ("dane-no-misc", "DaNE without MISC tags"),
   ("ddt-pos", "the POS part of DDT"),
   ("ddt-dep", "the DEP part of DDT"),
   ("angry-tweets", "Angry Tweets"),
   ("twitter-sent", "Twitter Sent"),
   ("dkhate", "DKHate"),
   ("europarl1", "Europarl1"),
   ("europarl2", "Europarl2"),
   ("lcc1", "LCC1"),
   ("lcc2", "LCC2")]

/-- Dataset resolution of Benchmark.__call__ (lines 322-328): None
selects every registry key in registry order, a single string becomes
a one-element list, a list is used as-is. -/
def resolveDatasetKeys : Option StrOrList → List String
  | none => benchmarksRegistry.map (fun b => b.1)
  | some (.str s) => [s]
  | some (.list xs) => xs

/-- The filtered benchmark list of Benchmark.__call__ (lines 331-333):
the registry restricted to the requested dataset keys, in registry
order; requested keys absent from the registry are silently
dropped. -/
def resolveBenchmarks (dataset : Option StrOrList) : List (String × String) :=
  benchmarksRegistry.filter (fun b => (resolveDatasetKeys dataset).contains b.1)

/-- Outcome of one runner invocation cls(model_id, ...): a successful
opaque result (embedded as a Nat), the designated InvalidBenchmark
failure, or any other exception. -/
inductive RunOutcome where
  | ok (r : Nat)
  | invalid (msg : String)
  | error (msg : String)
deriving DecidableEq

/-- True exactly on the uncaught-exception outcome. -/
def RunOutcome.isError : RunOutcome → Bool
  | .error _ => true
  | _ => false

/-- True exactly on the InvalidBenchmark outcome. -/
def RunOutcome.isInvalid : RunOutcome → Bool
  | .invalid _ => true
  | _ => false

/-- The results store self.benchmark_results: a defaultdict(dict)
mapping dataset key to an inner dict from model id to result
(Benchmark.__init__ line 81). -/
abbrev Store := List (String × List (String × Nat))

/-- The statement self.benchmark_results[dataset][model_id] = results
(line 344): the outer defaultdict access materialises the dataset row,
then the inner dict assignment writes the cell. -/
def ddSetCell (s : Store) (d m : String) (r : Nat) : Store :=
  match dictGet? s d with
  | some inner => dictSet s d (dictSet inner m r)
  | none => s ++ [(d, [(m, r)])]

/-- The cell of the results store at a dataset key and model id, none
when never written. -/
def cellGet? (s : Store) (d m : String) : Option Nat :=
  (dictGet? s d).bind (fun inner => dictGet? inner m)

/-- Subscript access results[d] on the returned defaultdict(dict): on a
miss the empty inner dict is inserted and returned, never an error. -/
def storeGet (s : Store) (d : String) : List (String × Nat) × Store :=
  match dictGet? s d with
  | some v => (v, s)
  | none => ([], s ++ [(d, [])])

/-- The inner loop of Benchmark.__call__ (lines 338-349) for one
dataset: invoke the runner on every model id; a success writes the
cell, InvalidBenchmark is caught and the pair skipped, any other
exception propagates and aborts the rest. -/
def runModels (runner : String → String → RunOutcome) (d : String)
    (models : List String) (store : Store) : Except String Store :=
  match models with
  | [] => .ok store
  | m :: ms =>
      match runner d m with
      | .ok r => runModels runner d ms (ddSetCell store d m r)
      | .invalid _ => runModels runner d ms store
      | .error e => .error e

/-- The run loop of Benchmark.__call__ (lines 337-349): datasets outer,
models inner. -/
def runLoop (runner : String → String → RunOutcome)
    (benchmarks : List (String × String)) (models : List String)
    (store : Store) : Except String Store :=
  match benchmarks with
  | [] => .ok store
  | (d, _) :: bs =>
      match runModels runner d models store with
      | .ok store1 => runLoop runner bs models store1
      | .error e => .error e

/-- Constructor defaults of Benchmark.__init__ that feed the control
flow of __call__: the language and task filters and the save_results
flag.  The remaining constructor arguments (num_finetunings,
progress_bar, batch_size, evaluate_train, verbose) are forwarded to
the runners and do not affect the orchestration logic embedded
here. -/
structure Config where
  language : StrOrList
  task : StrOrList
  save_results : Bool
deriving DecidableEq

/-- The constructor default values (lines 54-63): the seven
Scandinavian language codes, every task, no persistence. -/
def defaultConfig : Config :=
  { language := .list ["da", "sv", "no", "nb", "nn", "is", "fo"],
    task := .str "all",
    save_results := false }

/-- The per-instance mutable state of a Benchmark object: the lazily
built model catalog cache and the accumulated results store. -/
structure BState where
  model_lists : Option Catalog
  benchmark_results : Store
deriving DecidableEq

/-- What a successful Benchmark.__call__ produces: the updated instance
state, the returned mapping (line 357, the very results store of the
instance), and the JSON document written to
scandeval_benchmark_results.json when persistence is on (modelled by
its value; the write unconditionally replaces the file at that fixed
path). -/
structure CallOut where
  state : BState
  ret : Store
  saved : Option Store
deriving DecidableEq

/-- The fixed persistence path of Benchmark.__call__ (line 353). -/
def output_path : String := "scandeval_benchmark_results.json"

/-- Benchmark.__call__ (lines 195-357): default override, filter
normalisation, model and dataset resolution, the run loop, optional
persistence of the full store, and the return of the store.  An
uncaught runner exception propagates as .error carrying its message;
the claims settled here do not depend on the partially updated
instance state of that path, so the error value carries only the
message. -/
def benchCall (fetch : Option String → Option String → List String)
    (runner : String → String → RunOutcome) (defaults : Config)
    (model_id dataset : Option StrOrList)
    (save_results? : Option Bool) (language? task? : Option StrOrList)
    (st : BState) : Except String CallOut :=
  let save_results := save_results?.getD defaults.save_results
  let language := language?.getD defaults.language
  let task := task?.getD defaults.task
  let languages := normFilter language
  let tasks := normFilter task
  let mr := resolveModels fetch model_id languages tasks st.model_lists
  let benchmarks := resolveBenchmarks dataset
  match runLoop runner benchmarks mr.1 st.benchmark_results with
  | .error e => .error e
  | .ok store =>
      .ok { state := { model_lists := mr.2, benchmark_results := store },
            ret := store,
            saved := if save_results then some store else none }

/-- Descriptive characterisation (used to state and prove run loop
properties, not itself an embedding): the cell content after running
one dataset d over the given model list, in terms of the runner
outcomes and the previous store. -/
def cellAfterD (runner : String → String → RunOutcome) (d : String)
    (models : List String) (store : Store) (d' m' : String) : Option Nat :=
  if d' = d ∧ m' ∈ models then
    match runner d' m' with
    | .ok r => some r
    | _ => cellGet? store d' m'
  else cellGet? store d' m'

/-- Descriptive characterisation of the whole run loop: the cell
content after running every (dataset, model) pair of the batch. -/
def cellAfterLoop (runner : String → String → RunOutcome)
    (benchmarks : List (String × String)) (models : List String)
    (store : Store) (d' m' : String) : Option Nat :=
  if (∃ p ∈ benchmarks, p.1 = d') ∧ m' ∈ models then
    match runner d' m' with
    | .ok r => some r
    | _ => cellGet? store d' m'
  else cellGet? store d' m'

/-! ### Dictionary laws -/

theorem dictGet?_dictSet_self [DecidableEq α] (d : List (α × β)) (k : α) (v : β) :
    dictGet? (dictSet d k v) k = some v := by
  induction d with
  | nil => simp [dictGet?, dictSet]
  | cons kv rest ih =>
      by_cases h : kv.1 = k
      · simp [dictSet, dictGet?, h]
      · simp [dictSet, dictGet?, h, ih]

theorem dictGet?_dictSet_ne [DecidableEq α] (d : List (α × β)) (k k' : α) (v : β)
    (h : k' ≠ k) : dictGet? (dictSet d k v) k' = dictGet? d k' := by
  induction d with
  | nil => simp [dictGet?, dictSet, Ne.symm h]
  | cons kv rest ih =>
      obtain ⟨a, b⟩ := kv
      by_cases hk : a = k
      · simp [dictSet, dictGet?, hk, Ne.symm h]
      · simp [dictSet, dictGet?, hk, ih]

theorem dictGet?_append_none [DecidableEq α] (d : List (α × β)) (k : α) (v : β)
    (h : dictGet? d k = none) : dictGet? (d ++ [(k, v)]) k = some v := by
  induction d with
  | nil => simp [dictGet?]
  | cons kv rest ih =>
      by_cases hk : kv.1 = k
      · simp [dictGet?, hk] at h
      · simp [dictGet?, hk] at h ⊢
        exact ih h

theorem dictGet?_append_ne [DecidableEq α] (d : List (α × β)) (k k' : α) (v : β)
    (h : k' ≠ k) : dictGet? (d ++ [(k, v)]) k' = dictGet? d k' := by
  induction d with
  | nil => simp [dictGet?, Ne.symm h]
  | cons kv rest ih =>
      obtain ⟨a, b⟩ := kv
      by_cases hk : a = k'
      · simp [dictGet?, hk]
      · simp [dictGet?, hk, ih]

theorem dictGet?_ddExtend_self (ml : Catalog) (k : Option String) (xs : List String) :
    dictGet? (ddExtend ml k xs) k = some ((dictGet? ml k).getD [] ++ xs) := by
  unfold ddExtend
  cases h : dictGet? ml k with
  | none => simp [dictGet?_append_none ml k xs h]
  | some v => simp [dictGet?_dictSet_self]

theorem dictGet?_ddExtend_ne (ml : Catalog) (k k' : Option String) (xs : List String)
    (h : k' ≠ k) : dictGet? (ddExtend ml k xs) k' = dictGet? ml k' := by
  unfold ddExtend
  cases hk : dictGet? ml k with
  | none => exact dictGet?_append_ne ml k k' xs h
  | some v => exact dictGet?_dictSet_ne ml k k' (v ++ xs) h

theorem dictGet?_mapVal [DecidableEq α] (f : β → γ) (d : List (α × β)) (k : α) :
    dictGet? (d.map (fun kv => (kv.1, f kv.2))) k = (dictGet? d k).map f := by
  induction d with
  | nil => simp [dictGet?]
  | cons kv rest ih =>
      by_cases hk : kv.1 = k
      · simp [dictGet?, hk]
      · simp [dictGet?, hk, ih]

theorem mem_pySetList [DecidableEq α] (x : α) (l : List α) :
    x ∈ pySetList l ↔ x ∈ l := by
  induction l with
  | nil => simp [pySetList]
  | cons y ys ih =>
      by_cases h : y ∈ pySetList ys
      · simp [pySetList, h, ih]
        intro hx
        subst hx
        exact ih.mp h
      · simp [pySetList, h, ih]

/-! ### Catalog bucket equations for get_model_lists -/

theorem final_all_eq (fetch : Option String → Option String → List String)
    (L T : List (Option String)) :
    dictGet? (get_model_lists fetch L T) (some "all") =
      some (pySetList
        ((dictGet? (crossLoop fetch L T) (some "all")).getD [] ++ multilingual_models)) := by
  unfold get_model_lists
  have hne : (some "all" : Option String) ≠ some "multilingual" := by decide
  rw [dictGet?_mapVal, dictGet?_dictSet_ne _ _ _ _ hne, dictGet?_ddExtend_self]
  rfl

theorem final_mult_eq (fetch : Option String → Option String → List String)
    (L T : List (Option String)) :
    dictGet? (get_model_lists fetch L T) (some "multilingual") =
      some (pySetList multilingual_models) := by
  unfold get_model_lists
  rw [dictGet?_mapVal, dictGet?_dictSet_self]
  rfl

theorem final_other_eq (fetch : Option String → Option String → List String)
    (L T : List (Option String)) (k : Option String)
    (h1 : k ≠ some "all") (h2 : k ≠ some "multilingual") :
    dictGet? (get_model_lists fetch L T) k =
      (dictGet? (crossLoop fetch L T) k).map pySetList := by
  unfold get_model_lists
  rw [dictGet?_mapVal, dictGet?_dictSet_ne _ _ _ _ h2, dictGet?_ddExtend_ne _ _ _ _ h1]

/-! ### Results store laws -/

theorem cellGet?_ddSetCell (s : Store) (d m d' m' : String) (r : Nat) :
    cellGet? (ddSetCell s d m r) d' m' =
      if d' = d ∧ m' = m then some r else cellGet? s d' m' := by
  unfold ddSetCell cellGet?
  by_cases hd : d' = d
  · subst hd
    cases h : dictGet? s d' with
    | some inner =>
        rw [dictGet?_dictSet_self]
        by_cases hm : m' = m
        · subst hm
          simp [dictGet?_dictSet_self]
        · simp [hm, dictGet?_dictSet_ne inner m m' r hm, h]
    | none =>
        rw [dictGet?_append_none s d' [(m, r)] h]
        by_cases hm : m' = m
        · subst hm
          simp [dictGet?]
        · simp [hm, dictGet?, Ne.symm hm, h]
  · cases hg : dictGet? s d with
    | some inner => simp [hd, dictGet?_dictSet_ne s d d' (dictSet inner m r) hd]
    | none => simp [hd, dictGet?_append_ne s d d' [(m, r)] hd]

/-! ### Run loop characterisation -/

theorem runModels_ok_char (runner : String → String → RunOutcome) (d : String)
    (models : List String) :
    ∀ (store s' : Store), runModels runner d models store = .ok s' →
      ∀ d' m', cellGet? s' d' m' = cellAfterD runner d models store d' m' := by
  induction models with
  | nil =>
      intro store s' h d' m'
      simp [runModels] at h
      subst h
      simp [cellAfterD]
  | cons m ms ih =>
      intro store s' h d' m'
      rw [runModels] at h
      cases hr : runner d m with
      | ok r =>
          rw [hr] at h
          rw [ih (ddSetCell store d m r) s' h d' m']
          by_cases hd : d' = d
          · subst hd
            by_cases hms : m' ∈ ms
            · cases hro : runner d' m' with
              | ok r' => simp [cellAfterD, hms, hro]
              | invalid e =>
                  have hmm : m' ≠ m := by
                    intro hh
                    rw [hh, hr] at hro
                    exact RunOutcome.noConfusion hro
                  simp [cellAfterD, hms, hro, cellGet?_ddSetCell, hmm]
              | error e =>
                  have hmm : m' ≠ m := by
                    intro hh
                    rw [hh, hr] at hro
                    exact RunOutcome.noConfusion hro
                  simp [cellAfterD, hms, hro, cellGet?_ddSetCell, hmm]
            · by_cases hm : m' = m
              · subst hm
                simp [cellAfterD, hms, hr, cellGet?_ddSetCell]
              · simp [cellAfterD, hms, hm, cellGet?_ddSetCell]
          · simp [cellAfterD, hd, cellGet?_ddSetCell]
      | invalid e =>
          rw [hr] at h
          rw [ih store s' h d' m']
          by_cases hd : d' = d
          · subst hd
            by_cases hms : m' ∈ ms
            · simp [cellAfterD, hms]
            · by_cases hm : m' = m
              · subst hm
                simp [cellAfterD, hms, hr]
              · simp [cellAfterD, hms, hm]
          · simp [cellAfterD, hd]
      | error e =>
          rw [hr] at h
          exact Except.noConfusion h

theorem runModels_ok_exists (runner : String → String → RunOutcome) (d : String)
    (models : List String) :
    ∀ (store : Store), (∀ m ∈ models, (runner d m).isError = false) →
      ∃ s', runModels runner d models store = .ok s' := by
  induction models with
  | nil => intro store _; exact ⟨store, rfl⟩
  | cons m ms ih =>
      intro store hne
      cases hr : runner d m with
      | ok r =>
          obtain ⟨s', hs'⟩ := ih (ddSetCell store d m r)
            (fun x hx => hne x (List.mem_cons_of_mem m hx))
          exact ⟨s', by rw [runModels, hr]; exact hs'⟩
      | invalid e =>
          obtain ⟨s', hs'⟩ := ih store (fun x hx => hne x (List.mem_cons_of_mem m hx))
          exact ⟨s', by rw [runModels, hr]; exact hs'⟩
      | error e =>
          have := hne m (List.mem_cons_self m ms)
          rw [hr] at this
          simp [RunOutcome.isError] at this

theorem runLoop_ok_char (runner : String → String → RunOutcome)
    (benchmarks : List (String × String)) (models : List String) :
    ∀ (store s' : Store), runLoop runner benchmarks models store = .ok s' →
      ∀ d' m', cellGet? s' d' m' = cellAfterLoop runner benchmarks models store d' m' := by
  induction benchmarks with
  | nil =>
      intro store s' h d' m'
      simp [runLoop] at h
      subst h
      simp [cellAfterLoop]
  | cons p bs ih =>
      intro store s' h d' m'
      obtain ⟨d, a⟩ := p
      rw [runLoop] at h
      cases hm : runModels runner d models store with
      | error e => rw [hm] at h; exact Except.noConfusion h
      | ok s1 =>
          rw [hm] at h
          rw [ih s1 s' h d' m']
          have hchar := runModels_ok_char runner d models store s1 hm
          by_cases hC : m' ∈ models
          · by_cases hB : ∃ p ∈ bs, p.1 = d'
            · cases hro : runner d' m' with
              | ok r => simp [cellAfterLoop, hC, hB, hro]
              | invalid e =>
                  simp [cellAfterLoop, hC, hB, hro, hchar d' m', cellAfterD]
              | error e =>
                  simp [cellAfterLoop, hC, hB, hro, hchar d' m', cellAfterD]
            · by_cases hA : d' = d
              · subst hA
                simp [cellAfterLoop, hC, hB, hchar d' m', cellAfterD]
              · simp [cellAfterLoop, hC, hB, hA, Ne.symm hA, hchar d' m', cellAfterD]
          · simp [cellAfterLoop, hC, hchar d' m', cellAfterD]

theorem runLoop_ok_exists (runner : String → String → RunOutcome)
    (benchmarks : List (String × String)) (models : List String) :
    ∀ (store : Store),
      (∀ p ∈ benchmarks, ∀ m ∈ models, (runner p.1 m).isError = false) →
      ∃ s', runLoop runner benchmarks models store = .ok s' := by
  induction benchmarks with
  | nil => intro store _; exact ⟨store, rfl⟩
  | cons p bs ih =>
      intro store hne
      obtain ⟨d, a⟩ := p
      obtain ⟨s1, hs1⟩ := runModels_ok_exists runner d models store
        (fun m hm => hne (d, a) (List.mem_cons_self _ _) m hm)
      obtain ⟨s', hs'⟩ := ih s1 (fun q hq m hm => hne q (List.mem_cons_of_mem _ hq) m hm)
      exact ⟨s', by rw [runLoop, hs1]; exact hs'⟩

/-! ### Entry point characterisation -/

theorem benchCall_ok_inv (fetch : Option String → Option String → List String)
    (runner : String → String → RunOutcome) (defaults : Config)
    (model_id dataset : Option StrOrList) (sv : Option Bool)
    (l t : Option StrOrList) (st : BState) (out : CallOut)
    (h : benchCall fetch runner defaults model_id dataset sv l t st = .ok out) :
    runLoop runner (resolveBenchmarks dataset)
        (resolveModels fetch model_id (normFilter (l.getD defaults.language))
          (normFilter (t.getD defaults.task)) st.model_lists).1
        st.benchmark_results = .ok out.ret
    ∧ out.state.benchmark_results = out.ret
    ∧ out.state.model_lists = (resolveModels fetch model_id
        (normFilter (l.getD defaults.language))
        (normFilter (t.getD defaults.task)) st.model_lists).2
    ∧ out.saved = (if sv.getD defaults.save_results then some out.ret else none) := by
  rw [benchCall] at h
  cases hres : runLoop runner (resolveBenchmarks dataset)
      (resolveModels fetch model_id (normFilter (l.getD defaults.language))
        (normFilter (t.getD defaults.task)) st.model_lists).1
      st.benchmark_results with
  | error e => rw [hres] at h; exact Except.noConfusion h
  | ok store =>
      rw [hres] at h
      have hout := Except.ok.inj h
      subst hout
      exact ⟨rfl, rfl, rfl, rfl⟩

theorem benchCall_ok_exists (fetch : Option String → Option String → List String)
    (runner : String → String → RunOutcome) (defaults : Config)
    (model_id dataset : Option StrOrList) (sv : Option Bool)
    (l t : Option StrOrList) (st : BState)
    (hne : ∀ p ∈ resolveBenchmarks dataset,
      ∀ m ∈ (resolveModels fetch model_id (normFilter (l.getD defaults.language))
        (normFilter (t.getD defaults.task)) st.model_lists).1,
      (runner p.1 m).isError = false) :
    ∃ out, benchCall fetch runner defaults model_id dataset sv l t st = .ok out := by
  obtain ⟨s', hs'⟩ := runLoop_ok_exists runner (resolveBenchmarks dataset)
    (resolveModels fetch model_id (normFilter (l.getD defaults.language))
      (normFilter (t.getD defaults.task)) st.model_lists).1
    st.benchmark_results hne
  refine ⟨⟨⟨(resolveModels fetch model_id (normFilter (l.getD defaults.language))
      (normFilter (t.getD defaults.task)) st.model_lists).2, s'⟩, s',
      if sv.getD defaults.save_results then some s' else none⟩, ?_⟩
  rw [benchCall, hs']

/-! ### Claims -/

/-- Claim C6: for every input language list and task list, the
multilingual bucket of the catalog returned by a build contains at
least the two hand-injected identifiers xlm-roberta-base and
xlm-roberta-large, regardless of the requested filters. -/
theorem claim_c6_multilingual_bucket_fixed_ids
    (fetch : Option String → Option String → List String)
    (L T : List (Option String)) :
    "xlm-roberta-base" ∈ bucket (get_model_lists fetch L T) (some "multilingual")
    ∧ "xlm-roberta-large" ∈ bucket (get_model_lists fetch L T) (some "multilingual") := by
  unfold bucket
  rw [final_mult_eq]
  constructor
  · exact (mem_pySetList _ _).mpr (by decide)
  · exact (mem_pySetList _ _).mpr (by decide)

/-- Claim C4, counterexample: when the literal key multilingual is
itself a requested language filter, an identifier accumulated into the
multilingual bucket during the cross-product loop is no longer present
in that bucket of the returned mapping, because line 187 assigns the
fixed list to the multilingual bucket instead of unioning into it. -/
theorem claim_c4_counterexample :
    "m" ∈ bucket (crossLoop (fun _ _ => ["m"]) [some "multilingual"] [none])
        (some "multilingual")
    ∧ "m" ∉ bucket (get_model_lists (fun _ _ => ["m"]) [some "multilingual"] [none])
        (some "multilingual") := by
  decide

/-- Claim C4, amended: after the cross-product loop the fixed
multilingual identifiers are unioned into the all bucket (so every
identifier accumulated into the all bucket during the loop is still
present there), while the multilingual bucket is assigned exactly the
fixed list, discarding anything the loop accumulated under that
key. -/
theorem claim_c4_injection_amended
    (fetch : Option String → Option String → List String)
    (L T : List (Option String)) (x : String)
    (hx : x ∈ bucket (crossLoop fetch L T) (some "all")) :
    x ∈ bucket (get_model_lists fetch L T) (some "all")
    ∧ ∀ y, (y ∈ bucket (get_model_lists fetch L T) (some "multilingual")
        ↔ y ∈ multilingual_models) := by
  constructor
  · unfold bucket at hx ⊢
    rw [final_all_eq]
    simp only [Option.getD_some]
    exact (mem_pySetList _ _).mpr (List.mem_append_left _ hx)
  · intro y
    unfold bucket
    rw [final_mult_eq]
    simp only [Option.getD_some]
    exact mem_pySetList _ _

/-- Witness for claim C4: the amended statement applied at a concrete
fetch function. -/
theorem claim_c4_injection_amended_witness :
    "m" ∈ bucket (get_model_lists (fun _ _ => ["m"]) [some "da"] [none]) (some "all")
    ∧ ("xlm-roberta-base" ∈
        bucket (get_model_lists (fun _ _ => ["m"]) [some "da"] [none]) (some "multilingual")
      ↔ "xlm-roberta-base" ∈ multilingual_models) := by
  have h := claim_c4_injection_amended (fun _ _ => ["m"]) [some "da"] [none] "m" (by decide)
  exact ⟨h.1, h.2 "xlm-roberta-base"⟩

/-- Claim C5: with language filters da and task filters
token-classification, the returned catalog has buckets under the keys
all, da, token-classification and multilingual, and as a set the all
bucket is a superset of the union of the other three. -/
theorem claim_c5_all_bucket_superset
    (fetch : Option String → Option String → List String) (x : String)
    (hx : x ∈ bucket (get_model_lists fetch [some "da"] [some "token-classification"])
            (some "da")
        ∨ x ∈ bucket (get_model_lists fetch [some "da"] [some "token-classification"])
            (some "token-classification")
        ∨ x ∈ bucket (get_model_lists fetch [some "da"] [some "token-classification"])
            (some "multilingual")) :
    ((dictGet? (get_model_lists fetch [some "da"] [some "token-classification"])
        (some "all")).isSome = true
     ∧ (dictGet? (get_model_lists fetch [some "da"] [some "token-classification"])
        (some "da")).isSome = true
     ∧ (dictGet? (get_model_lists fetch [some "da"] [some "token-classification"])
        (some "token-classification")).isSome = true
     ∧ (dictGet? (get_model_lists fetch [some "da"] [some "token-classification"])
        (some "multilingual")).isSome = true)
    ∧ x ∈ bucket (get_model_lists fetch [some "da"] [some "token-classification"])
        (some "all") := by
  have hall := final_all_eq fetch [some "da"] [some "token-classification"]
  have hmult := final_mult_eq fetch [some "da"] [some "token-classification"]
  have hda := final_other_eq fetch [some "da"] [some "token-classification"]
    (some "da") (by decide) (by decide)
  have htc := final_other_eq fetch [some "da"] [some "token-classification"]
    (some "token-classification") (by decide) (by decide)
  have hLda : dictGet? (crossLoop fetch [some "da"] [some "token-classification"])
      (some "da") = some (fetch (some "da") (some "token-classification")) := rfl
  have hLtc : dictGet? (crossLoop fetch [some "da"] [some "token-classification"])
      (some "token-classification")
      = some (fetch (some "da") (some "token-classification")) := rfl
  have hLall : dictGet? (crossLoop fetch [some "da"] [some "token-classification"])
      (some "all") = some (fetch (some "da") (some "token-classification")) := rfl
  rw [hLda] at hda
  rw [hLtc] at htc
  rw [hLall] at hall
  refine ⟨⟨by rw [hall]; rfl, by rw [hda]; rfl, by rw [htc]; rfl, by rw [hmult]; rfl⟩, ?_⟩
  unfold bucket at hx ⊢
  rw [hda, htc, hmult] at hx
  rw [hall]
  simp only [Option.map_some', Option.getD_some] at hx ⊢
  rw [mem_pySetList]
  rcases hx with hx | hx | hx
  · exact List.mem_append_left _ ((mem_pySetList _ _).mp hx)
  · exact List.mem_append_left _ ((mem_pySetList _ _).mp hx)
  · exact List.mem_append_right _ ((mem_pySetList _ _).mp hx)

/-- Witness for claim C5 at a concrete fetch function. -/
theorem claim_c5_all_bucket_superset_witness :
    "m" ∈ bucket (get_model_lists (fun _ _ => ["m"]) [some "da"]
        [some "token-classification"]) (some "all") :=
  (claim_c5_all_bucket_superset (fun _ _ => ["m"]) "m" (Or.inl (by decide))).2

/-- Claim C3: the resolved dataset-runner list is the registry filtered
to the requested keys in registry order; requested keys absent from
the registry are silently dropped, and requesting only a key absent
from the registry yields the empty list without error. -/
theorem claim_c3_permissive_dataset_filter (req : List String) (d : String)
    (hd : d ∉ benchmarksRegistry.map (fun b => b.1)) :
    List.Sublist (resolveBenchmarks (some (.list req))) benchmarksRegistry
    ∧ (∀ k, k ∈ (resolveBenchmarks (some (.list req))).map (fun b => b.1)
        ↔ (k ∈ benchmarksRegistry.map (fun b => b.1) ∧ k ∈ req))
    ∧ resolveBenchmarks (some (.str d)) = [] := by
  refine ⟨List.filter_sublist _, ?_, ?_⟩
  · intro k
    constructor
    · intro hk
      rcases List.mem_map.mp hk with ⟨b, hbf, hbk⟩
      rcases List.mem_filter.mp hbf with ⟨hb, hc⟩
      have hmem : b.1 ∈ req := List.elem_iff.mp hc
      exact ⟨List.mem_map.mpr ⟨b, hb, hbk⟩, hbk ▸ hmem⟩
    · rintro ⟨hk, hkreq⟩
      rcases List.mem_map.mp hk with ⟨b, hb, hbk⟩
      refine List.mem_map.mpr ⟨b, List.mem_filter.mpr ⟨hb, ?_⟩, hbk⟩
      exact List.elem_iff.mpr (hbk ▸ hkreq)
  · apply List.filter_eq_nil_iff.mpr
    intro b hb
    intro hc
    have hmem : b.1 ∈ [d] := List.elem_iff.mp hc
    have hbd : b.1 = d := by simpa using hmem
    exact hd (List.mem_map.mpr ⟨b, hb, hbd⟩)

/-- Witness for claim C3 at concrete inputs. -/
theorem claim_c3_permissive_dataset_filter_witness :
    resolveBenchmarks (some (.str "nonexistent")) = []
    ∧ List.Sublist (resolveBenchmarks (some (.list ["dkhate", "nope"])))
        benchmarksRegistry := by
  have h := claim_c3_permissive_dataset_filter ["dkhate", "nope"] "nonexistent" (by decide)
  exact ⟨h.2.2, h.1⟩

/-- Claim C7 is contradicted by the code: _get_model_lists returns a
defaultdict(list), so a requested key absent from the cache never
raises KeyError; the except branch of lines 306-314 is dead and no
rebuild happens.  Concretely: build the cache for language da, then
resolve for language sv.  The resolution silently yields only the
stale wildcard bucket and the multilingual models, sv is not among
them, the cache now holds an empty sv bucket inserted by the
defaultdict access, while the rebuild the claim (and the comment at
lines 303-305) demands would have produced an sv bucket containing the
freshly fetched sv model. -/
theorem claim_c7_rebuild_dead_code :
    (resolveModels (fun lng _ => [lng.getD "wild"]) none [some "sv"] [none]
        (resolveModels (fun lng _ => [lng.getD "wild"]) none [some "da"] [none] none).2).1
      = ["da", "xlm-roberta-base", "xlm-roberta-large"]
    ∧ "sv" ∉ (resolveModels (fun lng _ => [lng.getD "wild"]) none [some "sv"] [none]
        (resolveModels (fun lng _ => [lng.getD "wild"]) none [some "da"] [none] none).2).1
    ∧ dictGet? ((resolveModels (fun lng _ => [lng.getD "wild"]) none [some "sv"] [none]
        (resolveModels (fun lng _ => [lng.getD "wild"]) none [some "da"] [none] none).2).2.getD [])
        (some "sv") = some []
    ∧ "sv" ∈ bucket (get_model_lists (fun lng _ => [lng.getD "wild"]) [some "sv"] [none])
        (some "sv") := by
  decide

/-- Claim C1: when every pair of the batch either succeeds or raises
InvalidBenchmark, the call returns normally (no exception escapes),
the cell of every InvalidBenchmark pair is exactly as before the call
(nothing is written for it), and the cell of every succeeding pair
holds that pair's fresh result. -/
theorem claim_c1_invalid_benchmark_isolated
    (fetch : Option String → Option String → List String)
    (runner : String → String → RunOutcome) (defaults : Config)
    (model_id dataset : Option StrOrList) (sv : Option Bool)
    (l t : Option StrOrList) (st : BState)
    (hne : ∀ p ∈ resolveBenchmarks dataset,
      ∀ m ∈ (resolveModels fetch model_id (normFilter (l.getD defaults.language))
        (normFilter (t.getD defaults.task)) st.model_lists).1,
      (runner p.1 m).isError = false) :
    ∃ out, benchCall fetch runner defaults model_id dataset sv l t st = .ok out
      ∧ ∀ p ∈ resolveBenchmarks dataset,
          ∀ m ∈ (resolveModels fetch model_id (normFilter (l.getD defaults.language))
            (normFilter (t.getD defaults.task)) st.model_lists).1,
          ((runner p.1 m).isInvalid = true →
            cellGet? out.ret p.1 m = cellGet? st.benchmark_results p.1 m)
          ∧ (∀ r, runner p.1 m = .ok r → cellGet? out.ret p.1 m = some r) := by
  obtain ⟨out, hout⟩ := benchCall_ok_exists fetch runner defaults model_id dataset
    sv l t st hne
  refine ⟨out, hout, ?_⟩
  have hinv := benchCall_ok_inv fetch runner defaults model_id dataset sv l t st out hout
  have hchar := runLoop_ok_char runner (resolveBenchmarks dataset)
    (resolveModels fetch model_id (normFilter (l.getD defaults.language))
      (normFilter (t.getD defaults.task)) st.model_lists).1
    st.benchmark_results out.ret hinv.1
  intro p hp m hm
  constructor
  · intro hInv
    rw [hchar p.1 m]
    cases hro : runner p.1 m with
    | ok r =>
        rw [hro] at hInv
        simp [RunOutcome.isInvalid] at hInv
    | invalid e => simp [cellAfterLoop, hro]
    | error e =>
        have hne' := hne p hp m hm
        rw [hro] at hne'
        simp [RunOutcome.isError] at hne'
  · intro r hro
    rw [hchar p.1 m]
    unfold cellAfterLoop
    rw [if_pos ⟨⟨p, hp, rfl⟩, hm⟩, hro]

/-- Witness for claim C1: a concrete batch in which one model raises
InvalidBenchmark and another succeeds. -/
theorem claim_c1_invalid_benchmark_isolated_witness :
    ∃ out, benchCall (fun _ _ => [])
        (fun _ m => if m = "bad" then .invalid "nope" else .ok 42) defaultConfig
        (some (.list ["bad", "good"])) (some (.str "dkhate")) none none none
        ⟨none, []⟩ = .ok out
      ∧ ∀ p ∈ resolveBenchmarks (some (.str "dkhate")),
          ∀ m ∈ (resolveModels (fun _ _ => []) (some (.list ["bad", "good"]))
            (normFilter ((none : Option StrOrList).getD defaultConfig.language))
            (normFilter ((none : Option StrOrList).getD defaultConfig.task))
            (BState.model_lists ⟨none, []⟩)).1,
          (((fun _ m => if m = "bad" then RunOutcome.invalid "nope" else .ok 42) p.1 m).isInvalid = true →
            cellGet? out.ret p.1 m = cellGet? (BState.benchmark_results ⟨none, []⟩) p.1 m)
          ∧ (∀ r, (fun _ m => if m = "bad" then RunOutcome.invalid "nope" else .ok 42) p.1 m = .ok r →
              cellGet? out.ret p.1 m = some r) :=
  claim_c1_invalid_benchmark_isolated (fun _ _ => [])
    (fun _ m => if m = "bad" then .invalid "nope" else .ok 42) defaultConfig
    (some (.list ["bad", "good"])) (some (.str "dkhate")) none none none
    ⟨none, []⟩ (by decide)

/-- Claim C2: across two successful invocations on the same instance,
the cell of a pair written by the second call holds the second call's
result, and a cell the second call does not write keeps the value
returned by the first call: accumulation is additive and overwriting
at the (dataset, model) cell granularity, with the later call winning
on overlap. -/
theorem claim_c2_overwrite_accumulation
    (fetch1 fetch2 : Option String → Option String → List String)
    (r1 r2 : String → String → RunOutcome) (defaults : Config)
    (mi1 ds1 : Option StrOrList) (sv1 : Option Bool) (l1 t1 : Option StrOrList)
    (mi2 ds2 : Option StrOrList) (sv2 : Option Bool) (l2 t2 : Option StrOrList)
    (st : BState) (out1 out2 : CallOut) (d m : String)
    (h1 : benchCall fetch1 r1 defaults mi1 ds1 sv1 l1 t1 st = .ok out1)
    (h2 : benchCall fetch2 r2 defaults mi2 ds2 sv2 l2 t2 out1.state = .ok out2) :
    (∀ v2, (∃ p ∈ resolveBenchmarks ds2, p.1 = d) →
      m ∈ (resolveModels fetch2 mi2 (normFilter (l2.getD defaults.language))
        (normFilter (t2.getD defaults.task)) out1.state.model_lists).1 →
      r2 d m = .ok v2 → cellGet? out2.ret d m = some v2)
    ∧ (((¬ ∃ p ∈ resolveBenchmarks ds2, p.1 = d)
        ∨ m ∉ (resolveModels fetch2 mi2 (normFilter (l2.getD defaults.language))
            (normFilter (t2.getD defaults.task)) out1.state.model_lists).1
        ∨ (r2 d m).isInvalid = true) →
      cellGet? out2.ret d m = cellGet? out1.ret d m) := by
  have hinv2 := benchCall_ok_inv fetch2 r2 defaults mi2 ds2 sv2 l2 t2 out1.state out2 h2
  have hchar := runLoop_ok_char r2 (resolveBenchmarks ds2)
    (resolveModels fetch2 mi2 (normFilter (l2.getD defaults.language))
      (normFilter (t2.getD defaults.task)) out1.state.model_lists).1
    out1.state.benchmark_results out2.ret hinv2.1
  have hst : out1.state.benchmark_results = out1.ret :=
    (benchCall_ok_inv fetch1 r1 defaults mi1 ds1 sv1 l1 t1 st out1 h1).2.1
  constructor
  · intro v2 hB hm hok
    rw [hchar d m]
    unfold cellAfterLoop
    rw [if_pos ⟨hB, hm⟩, hok]
  · intro hcase
    rw [hchar d m]
    rcases hcase with hnB | hnm | hInv
    · unfold cellAfterLoop
      rw [if_neg (fun hc => hnB hc.1), hst]
    · unfold cellAfterLoop
      rw [if_neg (fun hc => hnm hc.2), hst]
    · cases hro : r2 d m with
      | ok r =>
          rw [hro] at hInv
          simp [RunOutcome.isInvalid] at hInv
      | invalid e => simp [cellAfterLoop, hro, hst]
      | error e =>
          rw [hro] at hInv
          simp [RunOutcome.isInvalid] at hInv

/-- Witness for claim C2: two concrete successive calls on the same
pair with differing successful outcomes; the second result stands. -/
theorem claim_c2_overwrite_accumulation_witness :
    cellGet? ([("dkhate", [("m", 2)])] : Store) "dkhate" "m" = some 2 := by
  have h := claim_c2_overwrite_accumulation (fun _ _ => []) (fun _ _ => [])
    (fun _ _ => .ok 1) (fun _ _ => .ok 2) defaultConfig
    (some (.str "m")) (some (.str "dkhate")) none none none
    (some (.str "m")) (some (.str "dkhate")) none none none
    ⟨none, []⟩
    ⟨⟨none, [("dkhate", [("m", 1)])]⟩, [("dkhate", [("m", 1)])], none⟩
    ⟨⟨none, [("dkhate", [("m", 2)])]⟩, [("dkhate", [("m", 2)])], none⟩
    "dkhate" "m" rfl rfl
  exact h.1 2 ⟨("dkhate", "DKHate"), by decide, rfl⟩ (by decide) rfl

/-- Claim C8: with explicit model id(s) the resolved model list is
exactly the supplied value (a single string becomes a one-element
list, a list is used as-is, duplicates and order preserved), the
catalog is neither consulted nor populated, and the cache state of the
instance is unchanged by the call. -/
theorem claim_c8_explicit_model_ids_frame
    (fetch : Option String → Option String → List String)
    (runner : String → String → RunOutcome) (defaults : Config)
    (mi : StrOrList) (ds : Option StrOrList) (sv : Option Bool)
    (l t : Option StrOrList) (st : BState) (out : CallOut)
    (langs tasks : List (Option String)) (ml0 : Option Catalog)
    (s : String) (xs : List String)
    (h : benchCall fetch runner defaults (some mi) ds sv l t st = .ok out) :
    out.state.model_lists = st.model_lists
    ∧ resolveModels fetch (some (.str s)) langs tasks ml0 = ([s], ml0)
    ∧ resolveModels fetch (some (.list xs)) langs tasks ml0 = (xs, ml0) := by
  refine ⟨?_, rfl, rfl⟩
  have hinv := benchCall_ok_inv fetch runner defaults (some mi) ds sv l t st out h
  rw [hinv.2.2.1]
  cases mi with
  | str s => rfl
  | list xs => rfl

/-- Witness for claim C8 at a concrete call. -/
theorem claim_c8_explicit_model_ids_frame_witness :
    (CallOut.state ⟨⟨none, [("dkhate", [("m", 7)])]⟩, [("dkhate", [("m", 7)])], none⟩).model_lists
      = (BState.model_lists ⟨none, []⟩)
    ∧ resolveModels (fun _ _ => []) (some (.str "s")) [] [] none = (["s"], none) := by
  have h := claim_c8_explicit_model_ids_frame (fun _ _ => []) (fun _ _ => .ok 7)
    defaultConfig (.str "m") (some (.str "dkhate")) none none none
    ⟨none, []⟩ ⟨⟨none, [("dkhate", [("m", 7)])]⟩, [("dkhate", [("m", 7)])], none⟩
    [] [] none "s" [] rfl
  exact ⟨h.1, h.2.1⟩

/-- Claim C9: with persistence enabled the call writes the full current
results store, identical to the in-memory store it returns, to the
fixed path scandeval_benchmark_results.json (unconditional
overwrite). -/
theorem claim_c9_save_full_store
    (fetch : Option String → Option String → List String)
    (runner : String → String → RunOutcome) (defaults : Config)
    (mi ds : Option StrOrList) (sv : Option Bool) (l t : Option StrOrList)
    (st : BState) (out : CallOut)
    (hsave : sv.getD defaults.save_results = true)
    (h : benchCall fetch runner defaults mi ds sv l t st = .ok out) :
    out.saved = some out.ret
    ∧ out.ret = out.state.benchmark_results
    ∧ output_path = "scandeval_benchmark_results.json" := by
  have hinv := benchCall_ok_inv fetch runner defaults mi ds sv l t st out h
  refine ⟨?_, hinv.2.1.symm, rfl⟩
  rw [hinv.2.2.2, hsave]
  rfl

/-- Witness for claim C9: a concrete call with a pre-existing cell from
an earlier run; the persisted document carries the full store, prior
cell included. -/
theorem claim_c9_save_full_store_witness :
    (CallOut.saved ⟨⟨none, [("lcc1", [("old", 5)]), ("dkhate", [("m", 7)])]⟩,
        [("lcc1", [("old", 5)]), ("dkhate", [("m", 7)])],
        some [("lcc1", [("old", 5)]), ("dkhate", [("m", 7)])]⟩)
      = some (CallOut.ret ⟨⟨none, [("lcc1", [("old", 5)]), ("dkhate", [("m", 7)])]⟩,
        [("lcc1", [("old", 5)]), ("dkhate", [("m", 7)])],
        some [("lcc1", [("old", 5)]), ("dkhate", [("m", 7)])]⟩) := by
  have h := claim_c9_save_full_store (fun _ _ => []) (fun _ _ => .ok 7)
    defaultConfig (some (.str "m")) (some (.str "dkhate")) (some true) none none
    ⟨none, [("lcc1", [("old", 5)])]⟩
    ⟨⟨none, [("lcc1", [("old", 5)]), ("dkhate", [("m", 7)])]⟩,
      [("lcc1", [("old", 5)]), ("dkhate", [("m", 7)])],
      some [("lcc1", [("old", 5)]), ("dkhate", [("m", 7)])]⟩
    rfl rfl
  exact h.1

/-- Claim C10: the entry point returns the instance's own results
store, and the returned store is a defaultdict of dicts: subscripting
a dataset key never recorded yields the empty inner dict and inserts
that key, instead of failing. -/
theorem claim_c10_returned_store_total_lookup
    (fetch : Option String → Option String → List String)
    (runner : String → String → RunOutcome) (defaults : Config)
    (mi ds : Option StrOrList) (sv : Option Bool) (l t : Option StrOrList)
    (st : BState) (out : CallOut) (d : String)
    (h : benchCall fetch runner defaults mi ds sv l t st = .ok out)
    (hd : dictGet? out.ret d = none) :
    out.ret = out.state.benchmark_results
    ∧ (storeGet out.ret d).1 = []
    ∧ dictGet? (storeGet out.ret d).2 d = some [] := by
  refine ⟨(benchCall_ok_inv fetch runner defaults mi ds sv l t st out h).2.1.symm, ?_, ?_⟩
  · unfold storeGet
    rw [hd]
  · unfold storeGet
    rw [hd]
    exact dictGet?_append_none _ _ _ hd

/-- Witness for claim C10 at a concrete call with an empty selection,
probing the never-recorded dataset key dane. -/
theorem claim_c10_returned_store_total_lookup_witness :
    (CallOut.ret ⟨⟨none, []⟩, [], none⟩)
        = (CallOut.state ⟨⟨none, []⟩, [], none⟩).benchmark_results
    ∧ (storeGet (CallOut.ret ⟨⟨none, []⟩, [], none⟩) "dane").1 = []
    ∧ dictGet? (storeGet (CallOut.ret ⟨⟨none, []⟩, [], none⟩) "dane").2 "dane" = some [] :=
  claim_c10_returned_store_total_lookup (fun _ _ => []) (fun _ _ => .ok 7)
    defaultConfig (some (.str "m")) (some (.list [])) none none none
    ⟨none, []⟩ ⟨⟨none, []⟩, [], none⟩ "dane" rfl rfl

end Scandeval
